import Mathlib

/-!
# Noise machine: a shallow embedding of `main.go`

The program is a small HTTP control panel.  Its handlers shell out to `play`
and `amixer`, and keep one marker file holding the process identifier of the
player.  This development embeds the handlers as pure functions over an
explicit `World` (files, process table, logs of the external commands that were
issued) and an `Env` that fixes the outcome of every fallible call into the
operating system during one handler run.

Go strings are byte sequences; they are embedded as lists of byte values.
The platform `int` is taken to be 64 bits wide.  The program drives `amixer` and `play`, so
the sample states are those of a Unix machine, where `os.FindProcess` returns a handle for
every identifier and only `process.Kill` finds out that a process is gone.
-/

namespace NoiseMachine

/-! ## Strings and errors -/

/-- A Go `string`: a sequence of bytes, each below 256. -/
abbrev GoString := List Nat

/-- Bytes of an ASCII literal. -/
def str (s : String) : GoString := s.toList.map Char.toNat

/-- Go `error` values that the program can observe. -/
inductive GoError where
  /-- Made by `errors.New(msg)`. -/
  | new (msg : GoString)
  /-- A `*strconv.NumError` wrapping `strconv.ErrSyntax`. -/
  | errSyntax
  /-- A `*strconv.NumError` wrapping `strconv.ErrRange`. -/
  | errRange
  /-- The `fs.ErrNotExist` error of `os.ReadFile` and `os.Remove`. -/
  | notExist
  /-- Any other error reported by the operating system, the network or an external command. -/
  | sys (msg : GoString)
  deriving DecidableEq, Repr

deriving instance DecidableEq for Except

/-! ## `strconv` -/

/-- Width of the platform `int` (`strconv.IntSize`). -/
def intSize : Nat := 64

/-- Largest `uint64`. -/
def maxUint64 : Nat := 2 ^ 64 - 1

/-- Loop of the fast path of `strconv.Atoi`:
`ch -= '0'; if ch > 9 { syntax error }; n = n*10 + int(ch)`, the subtraction
being on a byte and so wrapping modulo 256.  `none` is the syntax error. -/
def atoiFast (n : Nat) : GoString → Option Nat
  | [] => some n
  | ch :: rest =>
    let d := (ch + 256 - 48) % 256
    if d > 9 then none else atoiFast (n * 10 + d) rest

/-- The function `lower(c) = c | ('x' - 'X')` of `strconv`. -/
def lower (c : Nat) : Nat := c ||| 32

/-- Loop of `strconv.ParseUint(s, 10, bitSize)` with `maxVal = 1<<bitSize - 1`;
the accumulator `n` is a `uint64`, so the addition wraps modulo `2^64`. -/
def parseUintLoop (maxVal : Nat) (n : Nat) : GoString → Except GoError Nat
  | [] => .ok n
  | c :: rest =>
    let digit : Option Nat :=
      if 48 ≤ c ∧ c ≤ 57 then some (c - 48)
      else if 97 ≤ lower c ∧ lower c ≤ 122 then some (lower c - 97 + 10)
      else none
    match digit with
    | none => .error .errSyntax
    | some d =>
      if d ≥ 10 then .error .errSyntax
      else if n ≥ maxUint64 / 10 + 1 then .error .errRange
      else
        let n10 := n * 10
        let n1 := (n10 + d) % 2 ^ 64
        if n1 < n10 ∨ n1 > maxVal then .error .errRange
        else parseUintLoop maxVal n1 rest

/-- The call `strconv.ParseUint(s, 10, 0)`. -/
def ParseUint (s : GoString) : Except GoError Nat :=
  if s = [] then .error .errSyntax
  else parseUintLoop (2 ^ intSize - 1) 0 s

/-- The call `strconv.ParseInt(s, 10, 0)`.  A range error of `ParseUint` comes
with the value `maxVal`, which the cutoff test below turns into a range error
again. -/
def ParseInt (s : GoString) : Except GoError Int :=
  match s with
  | [] => .error .errSyntax
  | c :: rest =>
    let neg := c = 45
    let body := if c = 43 ∨ c = 45 then rest else c :: rest
    let un : Except GoError Nat :=
      match ParseUint body with
      | .error .errRange => .ok (2 ^ intSize - 1)
      | r => r
    match un with
    | .error e => .error e
    | .ok un =>
      let cutoff := 2 ^ (intSize - 1)
      if ¬ neg ∧ un ≥ cutoff then .error .errRange
      else if neg ∧ un > cutoff then .error .errRange
      else .ok (if neg then - (un : Int) else (un : Int))

/-- The function `strconv.Atoi` on a 64-bit platform: strings of 1 to 18 bytes take the
fast path, everything else goes through `ParseInt`. -/
def Atoi (s : GoString) : Except GoError Int :=
  match s with
  | [] => ParseInt s
  | c :: rest =>
    if s.length < 19 then
      let body := if c = 45 ∨ c = 43 then rest else s
      if (c = 45 ∨ c = 43) ∧ rest.length < 1 then .error .errSyntax
      else
        match atoiFast 0 body with
        | none => .error .errSyntax
        | some n => .ok (if c = 45 then - (n : Int) else (n : Int))
    else ParseInt s

/-- Decimal digits of `n`, most significant first, as ASCII bytes.  The first
argument bounds the number of digits; `n + 1` is always enough. -/
def fmtNat : Nat → Nat → GoString
  | 0, _ => []
  | fuel + 1, n => if n < 10 then [48 + n] else fmtNat fuel (n / 10) ++ [48 + n % 10]

/-- The function `strconv.Itoa`: decimal text of an `int`, with a leading `-` when negative. -/
def Itoa (i : Int) : GoString :=
  if i < 0 then 45 :: fmtNat (i.natAbs + 1) i.natAbs else fmtNat (i.natAbs + 1) i.natAbs

/-! ## The world outside the program -/

/-- The part of the machine the handlers read and change. -/
structure World where
  /-- Contents of `PidFile` (`$HOME/noise/pid.txt`), `none` when the file does not exist. -/
  pidFile : Option GoString
  /-- The error with which `os.ReadFile(PidFile)` answers although the file exists (no read
  permission, for instance), `none` when the file can be read. -/
  pidFileReadErr : Option GoError
  /-- Contents of `NoiseFile`, `none` when the file does not exist. -/
  noiseFile : Option GoString
  /-- The error with which `os.FindProcess` answers for an identifier, `none` when it
  returns a process handle.  On a Unix system it returns a handle for every identifier,
  whether or not a process with that identifier exists. -/
  findProcess : Int → Option GoError
  /-- Process table: the identifiers that name a live process. -/
  alive : Int → Bool
  /-- Identifiers of the `play` processes started so far, oldest first. -/
  spawned : List Int
  /-- Identifiers to which `Process.Kill` delivered a signal, oldest first. -/
  killed : List Int
  /-- Argument lists of the `amixer` commands run so far, oldest first. -/
  mixer : List (List GoString)

/-- Outcome of each fallible call into the operating system during one handler run. -/
structure Env where
  /-- Value of `os.Getenv("AUTH_USER")`, empty when unset. -/
  authUser : GoString
  /-- Value of `os.Getenv("AUTH_PASSWORD")`, empty when unset. -/
  authPassword : GoString
  /-- Result of `http.Get(NoiseDownloadURL)`: the body, or the error. -/
  httpGet : Except GoError GoString
  /-- Error of `os.Create(NoiseFile)`, if any. -/
  createErr : Option GoError
  /-- Failure of `io.Copy`, if any: how many bytes reached the file, and the error. -/
  copyErr : Option (Nat × GoError)
  /-- Result of `cmd.Start()` for `play`: the new process identifier, or the error. -/
  startResult : Except GoError Int
  /-- Error of `os.WriteFile(PidFile, ...)`, if any. -/
  writeErr : Option GoError
  /-- Error of `os.Remove(PidFile)` on an existing file, if any. -/
  removeErr : Option GoError
  /-- Error of `process.Kill()`, if any. -/
  killErr : Option GoError
  /-- Result of `amixer -M sget PCM`: its output, or the error. -/
  amixerGet : Except GoError GoString
  /-- Error of `amixer -q -M sset PCM n%`, if any. -/
  amixerSet : Option GoError

/-! ## Volume controller -/

/-- Constant `DefaultVolume`. -/
def DefaultVolume : Int := 50

/-- Function `setVolume`: returns the error (`none` for `nil`) and the world afterwards. -/
def setVolume (env : Env) (volume : Int) (w : World) : Option GoError × World :=
  if volume < 0 ∨ volume > 100 then
    (some (.new (str "volume must be between 0 and 100")), w)
  else
    let volumeStr := Itoa volume ++ str "%"
    let w1 := { w with mixer := w.mixer ++ [[str "-q", str "-M", str "sset", str "PCM", volumeStr]] }
    match env.amixerSet with
    | some err => (some err, w1)
    | none => (none, w1)

/-- The pattern `\[(\d+)%\]` tried at the very start of `s`: an opening
bracket, the longest run of ASCII digits, which must not be empty, then `%]`.
Returns the text of the capture group.  The byte after the digits must be `%`,
which is no digit, so only the longest run can match. -/
def matchHere (s : GoString) : Option GoString :=
  match s with
  | 91 :: rest =>
    match rest.takeWhile (fun c => decide (48 ≤ c ∧ c ≤ 57)),
          rest.dropWhile (fun c => decide (48 ≤ c ∧ c ≤ 57)) with
    | d :: ds, 37 :: 93 :: _ => some (d :: ds)
    | _, _ => none
  | _ => none

/-- The call `regex.FindStringSubmatch(text)` for the pattern of `getVolume`, reduced to
what the caller reads: `matches[1]` of the leftmost match, `none` when `matches == nil`. -/
def findSubmatch : GoString → Option GoString
  | [] => none
  | c :: rest =>
    match matchHere (c :: rest) with
    | some ds => some ds
    | none => findSubmatch rest

/-- Steps 2 and 3 of `getVolume`: parse the output of the mixer. -/
def parseVolume (output : GoString) : Except GoError Int :=
  match findSubmatch output with
  | none => .error (.new (str "failed to parse volume"))
  | some m => Atoi m

/-- Function `getVolume`: the result and the world afterwards. -/
def getVolume (env : Env) (w : World) : Except GoError Int × World :=
  let w1 := { w with mixer := w.mixer ++ [[str "-M", str "sget", str "PCM"]] }
  match env.amixerGet with
  | .error err => (.error err, w1)
  | .ok output => (parseVolume output, w1)

/-! ## Requests and responses -/

/-- What the handlers read of an `*http.Request`. -/
structure Request where
  /-- Field `r.RemoteAddr`. -/
  remoteAddr : GoString
  /-- Result of `r.BasicAuth()`: user and password, `none` when `ok` is false. -/
  basicAuth : Option (GoString × GoString)
  /-- Value of `r.URL.Query().Get("volume")`, empty when the parameter is absent. -/
  volume : GoString

/-- Body written to the `http.ResponseWriter`. -/
inductive Body where
  /-- Plain text. -/
  | text (s : GoString)
  /-- Result of `fmt.Sprintf(msg + "%s", err)`, followed by the newline of `http.Error`. -/
  | failure (msg : GoString) (err : GoError)
  deriving DecidableEq

/-- What a handler answers. -/
structure Response where
  /-- Status code; 200 when the handler writes a body without setting one. -/
  status : Nat
  /-- Value of the `WWW-Authenticate` header, if set. -/
  wwwAuthenticate : Option GoString
  /-- The body. -/
  body : Body
  deriving DecidableEq

/-- The call `http.Error(w, msg, code)`; it writes `msg` and a newline. -/
def httpError (msg : GoString) (code : Nat) : Response :=
  ⟨code, none, .text (msg ++ [10])⟩

/-- Type of an `http.HandlerFunc` in this embedding. -/
abbrev Handler := Request → World → Response × World

/-! ## Process lifecycle -/

/-- Function `getPidFromFile`: any error of `os.ReadFile` is returned, then any error of
`strconv.Atoi`. -/
def getPidFromFile (w : World) : Except GoError Int :=
  match w.pidFile with
  | none => .error .notExist
  | some data =>
    match w.pidFileReadErr with
    | some err => .error err
    | none => Atoi data

/-- The call `os.Remove(PidFile)`: the error and the world afterwards. -/
def removePidFile (env : Env) (w : World) : Option GoError × World :=
  match w.pidFile with
  | none => (some .notExist, w)
  | some _ =>
    match env.removeErr with
    | some err => (some err, w)
    | none => (none, { w with pidFile := none })

/-- Function `getProcessStatus`: the status text and the world afterwards. -/
def getProcessStatus (env : Env) (w : World) : GoString × World :=
  match getPidFromFile w with
  | .error _ => (str "not running", w)
  | .ok pid =>
    match w.findProcess pid with
    | some _ => (str "not running", (removePidFile env w).2)
    | none => (str "running", w)

/-- How a call of `stopProcess` ends. -/
inductive StopResult where
  /-- It returned this error (`none` for `nil`). -/
  | returned (err : Option GoError)
  /-- It ran into `panic(err)`. -/
  | panicked (err : GoError)
  deriving DecidableEq

/-- Variable `os.ErrProcessDone`, the answer of `process.Kill()` when no live process has
the identifier. -/
def ErrProcessDone : GoError := .sys (str "os: process already finished")

/-- The call `process.Kill()` on the handle of `pid`: the error and the world afterwards.
Without a live process of that identifier it fails with `os.ErrProcessDone`; a delivered
signal is logged and ends the process. -/
def killProcess (env : Env) (pid : Int) (w : World) : Option GoError × World :=
  if w.alive pid = false then (some ErrProcessDone, w)
  else
    match env.killErr with
    | some err => (some err, w)
    | none =>
      (none, { w with
        killed := w.killed ++ [pid],
        alive := fun p => if p = pid then false else w.alive p })

/-- Function `stopProcess`. -/
def stopProcess (env : Env) (w : World) : StopResult × World :=
  let s := getProcessStatus env w
  if s.1 ≠ str "running" then (.returned none, s.2)
  else
    match getPidFromFile s.2 with
    | .error err => (.panicked err, s.2)
    | .ok pid =>
      match s.2.findProcess pid with
      | some err => (.returned (some err), (removePidFile env s.2).2)
      | none =>
        let k := killProcess env pid s.2
        match k.1 with
        | some err => (.returned (some err), k.2)
        | none =>
          let r := removePidFile env k.2
          (.returned r.1, r.2)

/-- Function `downloadFileIfNotExists(NoiseFile, NoiseDownloadURL)`.  A copy
that fails part-way leaves the bytes written so far in the file. -/
def downloadFileIfNotExists (env : Env) (w : World) : Option GoError × World :=
  match w.noiseFile with
  | some _ => (none, w)
  | none =>
    match env.httpGet with
    | .error err => (some err, w)
    | .ok body =>
      match env.createErr with
      | some err => (some err, w)
      | none =>
        match env.copyErr with
        | some (k, err) => (some err, { w with noiseFile := some (body.take k) })
        | none => (none, { w with noiseFile := some body })

/-- The statements `cmd.Start()` to `os.WriteFile(PidFile, ...)` of `startHandler` for a
child that started with identifier `pid`: the child is logged, live and resolvable from now
on, and the marker file is written unless the write fails; the error of the write is
dropped.  A marker file that the write creates can be read; one that it overwrites keeps
its permissions. -/
def spawnAndRecord (env : Env) (pid : Int) (w : World) : World :=
  let w1 := { w with
    spawned := w.spawned ++ [pid],
    findProcess := fun p => if p = pid then none else w.findProcess p,
    alive := fun p => if p = pid then true else w.alive p }
  match env.writeErr with
  | some _ => w1
  | none =>
    { w1 with
      pidFile := some (Itoa pid),
      pidFileReadErr := match w.pidFile with
        | none => none
        | some _ => w.pidFileReadErr }

/-- Handler `startHandler`. -/
def startHandler (env : Env) : Handler := fun _ w =>
  let d := downloadFileIfNotExists env w
  match d.1 with
  | some err => (⟨500, none, .failure (str "Failed to download file: ") err⟩, d.2)
  | none =>
    let s := getProcessStatus env d.2
    if s.1 = str "running" then (⟨200, none, .text (str "Process is already running\n")⟩, s.2)
    else
      match env.startResult with
      | .error err => (⟨500, none, .failure (str "Failed to start process: ") err⟩, s.2)
      | .ok pid =>
        let v := setVolume env DefaultVolume (spawnAndRecord env pid s.2)
        match v.1 with
        | some err => (⟨500, none, .failure (str "Failed to set volume: ") err⟩, v.2)
        | none => (⟨200, none, .text (str "Process started with PID " ++ Itoa pid)⟩, v.2)

/-- Handler `stopHandler`; a panic inside `stopProcess` leaves no response. -/
def stopHandler (env : Env) (w : World) : Option Response × World :=
  match stopProcess env w with
  | (.returned none, w1) => (some ⟨200, none, .text (str "Process stopped")⟩, w1)
  | (.returned (some err), w1) => (some ⟨500, none, .failure (str "Failed to stop process: ") err⟩, w1)
  | (.panicked _, w1) => (none, w1)

/-- Handler `updateVolumeHandler`. -/
def updateVolumeHandler (env : Env) : Handler := fun r w =>
  match Atoi r.volume with
  | .error _ => (httpError (str "Invalid volume parameter") 400, w)
  | .ok volume =>
    let v := setVolume env volume w
    match v.1 with
    | some _ => (httpError (str "Error setting volume") 500, v.2)
    | none => (⟨200, none, .text (str "Volume set to " ++ Itoa volume)⟩, v.2)

/-! ## Package `net`: addresses -/

/-- Index of the first byte `c` of `s` (`bytealg.IndexByteString`), `none` for `-1`. -/
def indexByte (s : GoString) (c : Nat) : Option Nat :=
  match s with
  | [] => none
  | b :: rest => if b = c then some 0 else (indexByte rest c).map (· + 1)

/-- Index of the last byte `c` of `s` (`bytealg.LastIndexByteString`), `none` for `-1`. -/
def lastIndexByte (s : GoString) (c : Nat) : Option Nat :=
  match s with
  | [] => none
  | b :: rest =>
    match lastIndexByte rest c with
    | some i => some (i + 1)
    | none => if b = c then some 0 else none

/-- The function `net.SplitHostPort`: host and port, `none` when it returns an error.
The port starts after the last colon; a host in brackets must close right before it. -/
def SplitHostPort (hostport : GoString) : Option (GoString × GoString) :=
  match lastIndexByte hostport 58 with
  | none => none
  | some i =>
    if hostport.head? = some 91 then
      match indexByte hostport 93 with
      | none => none
      | some close =>
        if close + 1 = hostport.length then none
        else if close + 1 = i then
          if (indexByte (hostport.drop 1) 91).isSome then none
          else if (indexByte (hostport.drop (close + 1)) 93).isSome then none
          else some ((hostport.take close).drop 1, hostport.drop (i + 1))
        else none
    else
      if (indexByte (hostport.take i) 58).isSome then none
      else if (indexByte hostport 91).isSome then none
      else if (indexByte hostport 93).isSome then none
      else some (hostport.take i, hostport.drop (i + 1))

/-- Loop of `netip.parseIPv4Fields` over the rest of the text: `val`, `pos` and `digLen` as in
the source, `fields` the four octets, `prev` the byte before the current one (`none` at
index 0). -/
def ipv4Loop (val pos digLen : Nat) (fields : List Nat) (prev : Option Nat) :
    GoString → Option (List Nat)
  | [] => if pos < 3 then none else some (fields.set 3 val)
  | c :: rest =>
    if 48 ≤ c ∧ c ≤ 57 then
      if digLen = 1 ∧ val = 0 then none
      else if val * 10 + c - 48 > 255 then none
      else ipv4Loop (val * 10 + c - 48) pos (digLen + 1) fields (some c) rest
    else if c = 46 then
      if prev = none ∨ rest = [] ∨ prev = some 46 then none
      else if pos = 3 then none
      else ipv4Loop 0 (pos + 1) 0 (fields.set pos val) (some c) rest
    else none

/-- The function `netip.parseIPv4Fields` on the whole of `s`: the four octets. -/
def parseIPv4Fields (s : GoString) : Option (List Nat) :=
  ipv4Loop 0 0 0 [0, 0, 0, 0] none s

/-- The 16-byte form of the IPv4 address with octets `f` (`Addr.As16`, `net.IPv4`). -/
def v4InV6 (f : List Nat) : List Nat :=
  [0, 0, 0, 0, 0, 0, 0, 0, 0, 0, 255, 255] ++ (List.range 4).map (fun k => f.getD k 0)

/-- Inner loop of `netip.parseIPv6`: reads one group of hex digits.  Returns the number of
digits, their value and the text left, `none` when the group has more than
four digits. -/
def hexGroup (off acc : Nat) : GoString → Option (Nat × Nat × GoString)
  | [] => some (off, acc, [])
  | c :: rest =>
    let digit : Option Nat :=
      if 48 ≤ c ∧ c ≤ 57 then some (c - 48)
      else if 97 ≤ c ∧ c ≤ 102 then some (c - 97 + 10)
      else if 65 ≤ c ∧ c ≤ 70 then some (c - 65 + 10)
      else none
    match digit with
    | none => some (off, acc, c :: rest)
    | some d =>
      if off > 3 then none
      else if acc * 16 + d > 65535 then none
      else hexGroup (off + 1) (acc * 16 + d) rest

/-- Outer loop `for i < 16` of `netip.parseIPv6`.  Every round adds 2 to `i`, so 8 rounds
are all there can be; the first argument counts the rounds left.  Returns the
array, `i`, the position of the ellipsis and the text left. -/
def ipv6Loop : Nat → List Nat → Nat → Option Nat → GoString →
    Option (List Nat × Nat × Option Nat × GoString)
  | 0, ip, i, ellipsis, s => some (ip, i, ellipsis, s)
  | rounds + 1, ip, i, ellipsis, s =>
    if ¬ i < 16 then some (ip, i, ellipsis, s)
    else
      match hexGroup 0 0 s with
      | none => none
      | some (off, acc, rest) =>
        if off = 0 then none
        else if rest.head? = some 46 then
          if ellipsis = none ∧ i ≠ 12 then none
          else if i + 4 > 16 then none
          else
            match parseIPv4Fields s with
            | none => none
            | some f =>
              some ((List.range 16).map (fun k =>
                if i ≤ k ∧ k < i + 4 then f.getD (k - i) 0 else ip.getD k 0), i + 4, ellipsis, [])
        else
          let ip1 := (ip.set i (acc / 256)).set (i + 1) (acc % 256)
          match rest with
          | [] => some (ip1, i + 2, ellipsis, [])
          | c :: rest1 =>
            if c ≠ 58 then none
            else
              match rest1 with
              | [] => none
              | 58 :: rest2 =>
                if ellipsis.isSome then none
                else if rest2 = [] then some (ip1, i + 2, some (i + 2), [])
                else ipv6Loop rounds ip1 (i + 2) (some (i + 2)) rest2
              | _ :: _ => ipv6Loop rounds ip1 (i + 2) ellipsis rest1

/-- The function `netip.parseIPv6` on the text before the zone: the 16 bytes. -/
def parseIPv6 (s : GoString) : Option (List Nat) :=
  let lead := decide (s.take 2 = [58, 58])
  let s1 := if lead then s.drop 2 else s
  if lead ∧ s1 = [] then some (List.replicate 16 0)
  else
    match ipv6Loop 8 (List.replicate 16 0) 0 (if lead then some 0 else none) s1 with
    | none => none
    | some (ip, i, ellipsis, rest) =>
      if rest ≠ [] then none
      else if i < 16 then
        match ellipsis with
        | none => none
        | some e =>
          some ((List.range 16).map (fun k =>
            if k < e then ip.getD k 0 else if k < e + (16 - i) then 0 else ip.getD (k - (16 - i)) 0))
      else if ellipsis.isSome then none
      else some ((List.range 16).map (fun k => ip.getD k 0))

/-- The function `netip.ParseAddr`, scanning for the first of `.`, `:` and `%`: the address
in its 16-byte form and whether it carries a zone. -/
def parseAddrScan (s : GoString) : GoString → Option (List Nat × Bool)
  | [] => none
  | c :: rest =>
    if c = 46 then (parseIPv4Fields s).map (fun f => (v4InV6 f, false))
    else if c = 58 then
      match indexByte s 37 with
      | none => (parseIPv6 s).map (fun ip => (ip, false))
      | some i =>
        if s.drop (i + 1) = [] then none
        else (parseIPv6 (s.take i)).map (fun ip => (ip, true))
    else if c = 37 then none
    else parseAddrScan s rest

/-- The function `net.ParseIP`: the 16-byte address, `none` for `nil`.  An address with a
zone is refused. -/
def ParseIP (s : GoString) : Option (List Nat) :=
  match parseAddrScan s s with
  | some (ip, false) => some ip
  | _ => none

/-- Method `IP.To4`. -/
def To4 (ip : List Nat) : Option (List Nat) :=
  if ip.length = 4 then some ip
  else if ip.length = 16 ∧ ip.take 10 = List.replicate 10 0 ∧ ip.getD 10 0 = 255 ∧
      ip.getD 11 0 = 255 then some (ip.drop 12)
  else none

/-- Method `IP.Equal`. -/
def ipEqual (ip x : List Nat) : Bool :=
  if ip.length = x.length then decide (ip = x)
  else if ip.length = 4 ∧ x.length = 16 then
    decide (x.take 12 = [0, 0, 0, 0, 0, 0, 0, 0, 0, 0, 255, 255] ∧ ip = x.drop 12)
  else if ip.length = 16 ∧ x.length = 4 then
    decide (ip.take 12 = [0, 0, 0, 0, 0, 0, 0, 0, 0, 0, 255, 255] ∧ ip.drop 12 = x)
  else false

/-- Variable `net.IPv4bcast`, the limited broadcast address. -/
def IPv4bcast : List Nat := v4InV6 [255, 255, 255, 255]

/-- Variable `net.IPv4zero`. -/
def IPv4zero : List Nat := v4InV6 [0, 0, 0, 0]

/-- Variable `net.IPv6unspecified`. -/
def IPv6unspecified : List Nat := List.replicate 16 0

/-- Variable `net.IPv6loopback`. -/
def IPv6loopback : List Nat := List.replicate 15 0 ++ [1]

/-- Method `IP.IsUnspecified`. -/
def IsUnspecified (ip : List Nat) : Bool :=
  ipEqual ip IPv4zero || ipEqual ip IPv6unspecified

/-- Method `IP.IsLoopback`. -/
def IsLoopback (ip : List Nat) : Bool :=
  match To4 ip with
  | some ip4 => decide (ip4.getD 0 0 = 127)
  | none => ipEqual ip IPv6loopback

/-- Method `IP.IsPrivate`: the ranges of RFC 1918 and RFC 4193. -/
def IsPrivate (ip : List Nat) : Bool :=
  match To4 ip with
  | some ip4 =>
    decide (ip4.getD 0 0 = 10 ∨ (ip4.getD 0 0 = 172 ∧ ip4.getD 1 0 &&& 240 = 16) ∨
      (ip4.getD 0 0 = 192 ∧ ip4.getD 1 0 = 168))
  | none => decide (ip.length = 16 ∧ ip.getD 0 0 &&& 254 = 252)

/-- Method `IP.IsMulticast`. -/
def IsMulticast (ip : List Nat) : Bool :=
  match To4 ip with
  | some ip4 => decide (ip4.getD 0 0 &&& 240 = 224)
  | none => decide (ip.length = 16 ∧ ip.getD 0 0 = 255)

/-- Method `IP.IsLinkLocalUnicast`. -/
def IsLinkLocalUnicast (ip : List Nat) : Bool :=
  match To4 ip with
  | some ip4 => decide (ip4.getD 0 0 = 169 ∧ ip4.getD 1 0 = 254)
  | none => decide (ip.length = 16 ∧ ip.getD 0 0 = 254 ∧ ip.getD 1 0 &&& 192 = 128)

/-- Method `IP.IsGlobalUnicast`. -/
def IsGlobalUnicast (ip : List Nat) : Bool :=
  (decide (ip.length = 4) || decide (ip.length = 16)) &&
    !ipEqual ip IPv4bcast &&
    !IsUnspecified ip &&
    !IsLoopback ip &&
    !IsMulticast ip &&
    !IsLinkLocalUnicast ip

/-! ## Access gate -/

/-- Function `requiresAuth`. -/
def requiresAuth (r : Request) : Bool :=
  match SplitHostPort r.remoteAddr with
  | none => true
  | some (ip, _) =>
    match ParseIP ip with
    | none => true
    | some userIP => !IsPrivate userIP && IsGlobalUnicast userIP

/-- The function `subtle.ConstantTimeCompare`: 1 when the two byte slices are equal, else
0.  The loop ors together the xor of every pair of bytes; the last step,
`ConstantTimeByteEq(v, 0)`, is 1 exactly when `v` is 0. -/
def ConstantTimeCompare (x y : GoString) : Nat :=
  if x.length ≠ y.length then 0
  else if (List.zip x y).foldl (fun v p => v ||| (p.1 ^^^ p.2)) 0 = 0 then 1 else 0

/-- Middleware `authMiddleware(next)`. -/
def authMiddleware (env : Env) (next : Handler) : Handler := fun r w =>
  if ¬ requiresAuth r then next r w
  else if env.authUser = [] ∨ env.authPassword = [] then
    (httpError (str "Unauthorized") 401, w)
  else
    match r.basicAuth with
    | none => (⟨401, some (str "Basic realm=\"Restricted\""), .text (str "Unauthorized\n")⟩, w)
    | some (recvUser, recvPass) =>
      if ConstantTimeCompare recvUser env.authUser ≠ 1 ∨
          ConstantTimeCompare recvPass env.authPassword ≠ 1 then
        (⟨401, some (str "Basic realm=\"Restricted\""), .text (str "Unauthorized\n")⟩, w)
      else next r w

/-! ## Sample states -/

/-- An environment in which every call into the operating system succeeds; credentials are
`admin` and `secret`, the download yields three bytes, `play` starts as process 4242 and
the mixer reports 42 percent. -/
def calmEnv : Env where
  authUser := str "admin"
  authPassword := str "secret"
  httpGet := .ok [73, 68, 51]
  createErr := none
  copyErr := none
  startResult := .ok 4242
  writeErr := none
  removeErr := none
  killErr := none
  amixerGet := .ok (str "  Mono: Playback 120 [42%] [-20.00dB] [on]")
  amixerSet := none

/-- The calm environment with a mixer that prints `output`. -/
def mixerPrints (output : GoString) : Env :=
  { calmEnv with amixerGet := .ok output }

/-- A Unix machine right after installation: no marker file, no audio asset, no player
alive, nothing run yet; `os.FindProcess` returns a handle for every identifier. -/
def freshWorld : World where
  pidFile := none
  pidFileReadErr := none
  noiseFile := none
  findProcess := fun _ => none
  alive := fun _ => false
  spawned := []
  killed := []
  mixer := []

/-- The machine while the player runs as process 4242: asset and marker are in place and
the process is alive. -/
def playingWorld : World where
  pidFile := some (str "4242")
  pidFileReadErr := none
  noiseFile := some [73, 68, 51]
  findProcess := fun _ => none
  alive := fun p => decide (p = 4242)
  spawned := [4242]
  killed := []
  mixer := [[str "-q", str "-M", str "sset", str "PCM", str "50%"]]

/-- The playing machine after the audio asset was deleted by hand. -/
def playingWorldNoAsset : World :=
  { playingWorld with noiseFile := none }

/-- A machine with the asset in place and a readable marker file holding `text`; no player
is alive. -/
def markedWorld (text : GoString) : World :=
  { freshWorld with pidFile := some text, noiseFile := some [73, 68, 51] }

/-- A machine whose marker still names process 4242 although that process is gone. -/
def orphanWorld : World :=
  { playingWorld with alive := fun _ => false }

/-- The playing machine, except that the marker file cannot be read. -/
def unreadableWorld : World :=
  { playingWorld with pidFileReadErr := some (.sys (str "permission denied")) }

/-- A machine with the asset in place and no marker file. -/
def idleWorld : World :=
  { freshWorld with noiseFile := some [73, 68, 51] }

/-- The calm environment, except that writing the marker file fails. -/
def noWriteEnv : Env :=
  { calmEnv with writeErr := some (.sys (str "permission denied")) }

/-! ## Vocabulary of the statements -/

/-- Value of a string of ASCII digits read as a decimal number. -/
def digitsVal (ds : GoString) : Nat := ds.foldl (fun n c => n * 10 + (c - 48)) 0

/-- The text contains, at byte offset `i`, a substring made of `[`, the non-empty run
of ASCII digits `ds`, and `%]`. -/
def MatchAt (text : GoString) (i : Nat) (ds : GoString) : Prop :=
  ds ≠ [] ∧ (∀ c ∈ ds, 48 ≤ c ∧ c ≤ 57) ∧
    ∃ pre post, text = pre ++ 91 :: ds ++ 37 :: 93 :: post ∧ pre.length = i

/-! ## Volume controller: validation -/

/-- C1: for every level below 0 or above 100, `setVolume` returns the error
"volume must be between 0 and 100" and the world, the log of mixer commands
included, is exactly what it was: no `amixer` command is issued. -/
theorem setVolume_out_of_range (env : Env) (level : Int) (w : World)
    (h : level < 0 ∨ level > 100) :
    setVolume env level w = (some (.new (str "volume must be between 0 and 100")), w) := by
  unfold setVolume
  rw [if_pos h]

/-- Witness for C1 at level 150. -/
theorem setVolume_out_of_range_witness :
    setVolume calmEnv 150 freshWorld
      = (some (.new (str "volume must be between 0 and 100")), freshWorld) :=
  setVolume_out_of_range calmEnv 150 freshWorld (Or.inr (by decide))

/-- C2, as stated, fails: the request `volume=150` carries an integer outside [0,100],
and `updateVolumeHandler` answers 500, not 400. -/
theorem updateVolumeHandler_150_not_400 :
    (∃ n : Int, Atoi (str "150") = .ok n ∧ (n < 0 ∨ n > 100)) ∧
    (updateVolumeHandler calmEnv ⟨str "192.168.1.5:54321", none, str "150"⟩ freshWorld).1.status
      = 500 ∧
    (updateVolumeHandler calmEnv ⟨str "192.168.1.5:54321", none, str "150"⟩ freshWorld).1.status
      ≠ 400 :=
  ⟨⟨150, by decide, by decide⟩, by decide, by decide⟩

/-- C2, amended: a `volume` parameter that `strconv.Atoi` rejects is answered with 400
"Invalid volume parameter"; one that is an integer outside [0,100] is answered with
500 "Error setting volume"; in both cases the world is unchanged, so the mixer is not
invoked. -/
theorem updateVolumeHandler_rejects (env : Env) (r : Request) (w : World) :
    (∀ err, Atoi r.volume = .error err →
      updateVolumeHandler env r w = (httpError (str "Invalid volume parameter") 400, w)) ∧
    (∀ n : Int, Atoi r.volume = .ok n → (n < 0 ∨ n > 100) →
      updateVolumeHandler env r w = (httpError (str "Error setting volume") 500, w)) := by
  constructor
  · intro err h
    simp only [updateVolumeHandler, h]
  · intro n h hn
    simp only [updateVolumeHandler, h, setVolume, if_pos hn]

/-- Witness for C2, amended, at `volume=abc` and at `volume=150`. -/
theorem updateVolumeHandler_rejects_witness :
    updateVolumeHandler calmEnv ⟨str "192.168.1.5:54321", none, str "abc"⟩ freshWorld
      = (httpError (str "Invalid volume parameter") 400, freshWorld) ∧
    updateVolumeHandler calmEnv ⟨str "192.168.1.5:54321", none, str "150"⟩ freshWorld
      = (httpError (str "Error setting volume") 500, freshWorld) :=
  ⟨(updateVolumeHandler_rejects calmEnv ⟨str "192.168.1.5:54321", none, str "abc"⟩
      freshWorld).1 .errSyntax (by decide),
   (updateVolumeHandler_rejects calmEnv ⟨str "192.168.1.5:54321", none, str "150"⟩
      freshWorld).2 150 (by decide) (Or.inr (by decide))⟩

/-! ## Access gate: credentials -/

/-- A bitwise or is 0 exactly when both sides are. -/
theorem lor_eq_zero (a b : Nat) : a ||| b = 0 ↔ a = 0 ∧ b = 0 := by
  constructor
  · intro h
    have key : ∀ i, (a.testBit i || b.testBit i) = false := by
      intro i
      rw [← Nat.testBit_or, h, Nat.zero_testBit]
    constructor <;> apply Nat.eq_of_testBit_eq <;> intro i <;> have := key i <;> simp_all
  · rintro ⟨rfl, rfl⟩
    simp

/-- The accumulator of `ConstantTimeCompare` ends at 0 exactly when it starts at 0 and
every pair of bytes is equal. -/
theorem foldl_or_xor_eq_zero (l : List (Nat × Nat)) (v : Nat) :
    l.foldl (fun v p => v ||| (p.1 ^^^ p.2)) v = 0 ↔ v = 0 ∧ ∀ p ∈ l, p.1 = p.2 := by
  induction l generalizing v with
  | nil => simp
  | cons p l ih =>
    simp only [List.foldl_cons, ih, List.mem_cons, forall_eq_or_imp, lor_eq_zero,
      Nat.xor_eq_zero]
    tauto

/-- Two lists of equal length are equal exactly when they agree at every position. -/
theorem zip_all_eq (x y : List Nat) (h : x.length = y.length) :
    (∀ p ∈ List.zip x y, p.1 = p.2) ↔ x = y := by
  induction x generalizing y with
  | nil => cases y <;> simp_all
  | cons a x ih =>
    cases y with
    | nil => simp at h
    | cons b y =>
      simp only [List.length_cons, Nat.add_right_cancel_iff] at h
      simp only [List.zip_cons_cons, List.mem_cons, forall_eq_or_imp, ih y h, List.cons.injEq]

/-- The function `ConstantTimeCompare` answers 1 exactly on equal arguments. -/
theorem constantTimeCompare_eq_one (x y : GoString) : ConstantTimeCompare x y = 1 ↔ x = y := by
  unfold ConstantTimeCompare
  by_cases h : x.length = y.length
  · simp only [h, ne_eq, not_true_eq_false, if_false, foldl_or_xor_eq_zero, true_and,
      zip_all_eq x y h]
    split <;> simp_all
  · have : x ≠ y := fun e => h (by rw [e])
    simp [h, this]

/-- C3: for a request that `requiresAuth` classifies as untrusted, `authMiddleware` hands
the request to the wrapped handler when `AUTH_USER` and `AUTH_PASSWORD` are both non-empty
and the request carries exactly these Basic credentials; in every other case the answer
has status 401, it and the world are the same whatever the wrapped handler is, and the
world is unchanged: the wrapped handler is not called. -/
theorem authMiddleware_untrusted (env : Env) (r : Request) (w : World)
    (h : requiresAuth r = true) :
    (env.authUser ≠ [] ∧ env.authPassword ≠ [] ∧
        r.basicAuth = some (env.authUser, env.authPassword) →
      ∀ next : Handler, authMiddleware env next r w = next r w) ∧
    (¬ (env.authUser ≠ [] ∧ env.authPassword ≠ [] ∧
        r.basicAuth = some (env.authUser, env.authPassword)) →
      ∃ resp : Response, resp.status = 401 ∧
        ∀ next : Handler, authMiddleware env next r w = (resp, w)) := by
  constructor
  · rintro ⟨hu, hp, hb⟩ next
    simp [authMiddleware, h, hu, hp, hb, constantTimeCompare_eq_one]
  · intro hno
    by_cases hcfg : env.authUser = [] ∨ env.authPassword = []
    · exact ⟨httpError (str "Unauthorized") 401, rfl, fun next => by
        simp [authMiddleware, h, hcfg]⟩
    · refine ⟨⟨401, some (str "Basic realm=\"Restricted\""), .text (str "Unauthorized\n")⟩,
        rfl, fun next => ?_⟩
      have hu : env.authUser ≠ [] := fun e => hcfg (Or.inl e)
      have hp : env.authPassword ≠ [] := fun e => hcfg (Or.inr e)
      cases hb : r.basicAuth with
      | none => simp [authMiddleware, h, hcfg, hb]
      | some cred =>
        obtain ⟨u, p⟩ := cred
        have hne : ¬ (u = env.authUser ∧ p = env.authPassword) := by
          rintro ⟨rfl, rfl⟩
          exact hno ⟨hu, hp, hb⟩
        have hcmp : ConstantTimeCompare u env.authUser ≠ 1 ∨
            ConstantTimeCompare p env.authPassword ≠ 1 := by
          simp only [ne_eq, constantTimeCompare_eq_one]
          tauto
        simp only [authMiddleware, h, not_true_eq_false, if_false, hcfg, hb, if_pos hcmp]

/-- Witness for C3: a request from 8.8.8.8 with the right credentials reaches the wrapped
handler, and the same request with a wrong password is answered 401. -/
theorem authMiddleware_untrusted_witness :
    authMiddleware calmEnv (startHandler calmEnv)
        ⟨str "8.8.8.8:443", some (str "admin", str "secret"), []⟩ freshWorld
      = startHandler calmEnv ⟨str "8.8.8.8:443", some (str "admin", str "secret"), []⟩
          freshWorld ∧
    ∃ resp : Response, resp.status = 401 ∧ ∀ next : Handler,
      authMiddleware calmEnv next ⟨str "8.8.8.8:443", some (str "admin", str "guess"), []⟩
        freshWorld = (resp, freshWorld) :=
  ⟨(authMiddleware_untrusted calmEnv
      ⟨str "8.8.8.8:443", some (str "admin", str "secret"), []⟩ freshWorld (by decide)).1
      ⟨by decide, by decide, rfl⟩ (startHandler calmEnv),
   (authMiddleware_untrusted calmEnv
      ⟨str "8.8.8.8:443", some (str "admin", str "guess"), []⟩ freshWorld (by decide)).2
      (by decide)⟩

/-! ## Access gate: origin -/

/-- Every address that `parseIPv6` returns has 16 bytes. -/
theorem parseIPv6_length (u : GoString) (ip : List Nat) (hu : parseIPv6 u = some ip) :
    ip.length = 16 := by
  unfold parseIPv6 at hu
  simp only at hu
  repeat' split at hu
  all_goals first
    | contradiction
    | (injection hu with hu; subst hu; simp)

/-- Every address that `ParseIP` returns has 16 bytes. -/
theorem ParseIP_length (s : GoString) (ip : List Nat) (h : ParseIP s = some ip) :
    ip.length = 16 := by
  have scan : ∀ t : GoString, ∀ ip z, parseAddrScan s t = some (ip, z) → ip.length = 16 := by
    intro t
    induction t with
    | nil => intro ip z h; simp [parseAddrScan] at h
    | cons c rest ih =>
      intro ip z h
      unfold parseAddrScan at h
      split at h
      · cases hf : parseIPv4Fields s with
        | none => simp [hf] at h
        | some f =>
          simp only [hf, Option.map_some', Option.some.injEq, Prod.mk.injEq] at h
          rw [← h.1]
          simp [v4InV6]
      · split at h
        · split at h
          · cases hp : parseIPv6 s with
            | none => simp [hp] at h
            | some q =>
              simp only [hp, Option.map_some', Option.some.injEq, Prod.mk.injEq] at h
              rw [← h.1]
              exact parseIPv6_length _ _ hp
          · split at h
            · cases h
            · rename_i i _ _
              cases hp : parseIPv6 (List.take i s) with
              | none => simp [hp] at h
              | some q =>
                simp only [hp, Option.map_some', Option.some.injEq, Prod.mk.injEq] at h
                rw [← h.1]
                exact parseIPv6_length _ _ hp
        · split at h
          · cases h
          · exact ih ip z h
  unfold ParseIP at h
  split at h
  · rename_i ip1 heq
    cases h
    exact scan s _ _ heq
  · cases h

/-- C4, as stated, fails: the link-local origin `169.254.1.1:5000` parses to an address that
is neither loopback nor in a private range, and `requiresAuth` still answers false. -/
theorem requiresAuth_link_local_trusted :
    requiresAuth ⟨str "169.254.1.1:5000", none, []⟩ = false ∧
    ¬ ∃ host port ip, SplitHostPort (str "169.254.1.1:5000") = some (host, port) ∧
        ParseIP host = some ip ∧ (IsLoopback ip = true ∨ IsPrivate ip = true) := by
  refine ⟨by decide, ?_⟩
  rintro ⟨host, port, ip, hs, hp, hc⟩
  have e1 : SplitHostPort (str "169.254.1.1:5000") = some (str "169.254.1.1", str "5000") := by
    decide
  rw [e1] at hs
  injection hs with hs
  injection hs with hhost hport
  subst hhost
  have e2 : ParseIP (str "169.254.1.1")
      = some [0, 0, 0, 0, 0, 0, 0, 0, 0, 0, 255, 255, 169, 254, 1, 1] := by decide
  rw [e2] at hp
  injection hp with hp
  subst hp
  revert hc
  decide

/-- C4, amended: `requiresAuth` answers false (trusted) exactly when the remote address
splits into host and port, the host parses as an IP address, and that address is in a
private range or is not a global unicast address, that is, it is a loopback, link-local
unicast, multicast or unspecified address or the IPv4 broadcast address.  Every other
address, and every address that does not split or parse, is answered true. -/
theorem requiresAuth_eq_false_iff (r : Request) :
    requiresAuth r = false ↔
      ∃ host port ip, SplitHostPort r.remoteAddr = some (host, port) ∧
        ParseIP host = some ip ∧
        (IsPrivate ip = true ∨ IsLoopback ip = true ∨ IsLinkLocalUnicast ip = true ∨
          IsMulticast ip = true ∨ IsUnspecified ip = true ∨ ipEqual ip IPv4bcast = true) := by
  unfold requiresAuth
  cases hs : SplitHostPort r.remoteAddr with
  | none => simp
  | some hp =>
    obtain ⟨host, port⟩ := hp
    cases hip : ParseIP host with
    | none => simp [hip]
    | some ip =>
      have hlen := ParseIP_length host ip hip
      simp only [hip, Option.some.injEq, Prod.mk.injEq, IsGlobalUnicast, hlen]
      constructor
      · intro h
        refine ⟨host, port, ip, ⟨rfl, rfl⟩, hip, ?_⟩
        revert h
        cases IsPrivate ip <;> cases IsLoopback ip <;> cases IsLinkLocalUnicast ip <;>
          cases IsMulticast ip <;> cases IsUnspecified ip <;> cases ipEqual ip IPv4bcast <;>
          simp
      · rintro ⟨host1, port1, ip1, ⟨rfl, rfl⟩, hip1, h⟩
        rw [hip] at hip1
        injection hip1 with hip1
        subst hip1
        revert h
        cases IsPrivate ip <;> cases IsLoopback ip <;> cases IsLinkLocalUnicast ip <;>
          cases IsMulticast ip <;> cases IsUnspecified ip <;> cases ipEqual ip IPv4bcast <;>
          simp

/-! ## `strconv`: what `Atoi` computes -/

/-- Reading further digits never lowers the accumulator. -/
theorem foldl_digits_ge (ds : GoString) (n : Nat) :
    n ≤ ds.foldl (fun n c => n * 10 + (c - 48)) n := by
  induction ds generalizing n with
  | nil => simp
  | cons c ds ih =>
    simp only [List.foldl_cons]
    exact le_trans (by omega) (ih _)

/-- A string of `k` digits read after `n` stays below `(n + 1) * 10 ^ k`. -/
theorem foldl_digits_lt (ds : GoString) (hd : ∀ c ∈ ds, 48 ≤ c ∧ c ≤ 57) (n : Nat) :
    ds.foldl (fun n c => n * 10 + (c - 48)) n < (n + 1) * 10 ^ ds.length := by
  induction ds generalizing n with
  | nil => simp
  | cons c ds ih =>
    have hc := hd c (List.mem_cons_self _ _)
    have h := ih (fun x hx => hd x (List.mem_cons_of_mem _ hx)) (n * 10 + (c - 48))
    simp only [List.foldl_cons, List.length_cons]
    calc List.foldl (fun n c => n * 10 + (c - 48)) (n * 10 + (c - 48)) ds
        < (n * 10 + (c - 48) + 1) * 10 ^ ds.length := h
      _ ≤ ((n + 1) * 10) * 10 ^ ds.length := Nat.mul_le_mul_right _ (by omega)
      _ = (n + 1) * 10 ^ (ds.length + 1) := by rw [pow_succ]; ring

/-- On digits, the fast path of `Atoi` computes the decimal value. -/
theorem atoiFast_digits (ds : GoString) (hd : ∀ c ∈ ds, 48 ≤ c ∧ c ≤ 57) (n : Nat) :
    atoiFast n ds = some (ds.foldl (fun n c => n * 10 + (c - 48)) n) := by
  induction ds generalizing n with
  | nil => simp [atoiFast]
  | cons c ds ih =>
    have hc := hd c (List.mem_cons_self _ _)
    have e : (c + 256 - 48) % 256 = c - 48 := by omega
    have h9 : ¬ c - 48 > 9 := by omega
    simp only [atoiFast, e, h9, if_false, List.foldl_cons]
    exact ih (fun x hx => hd x (List.mem_cons_of_mem _ hx)) _

/-- On digits, the loop of `ParseUint` computes the decimal value when it fits in 64
bits and reports a range error otherwise. -/
theorem parseUintLoop_digits (ds : GoString) (hd : ∀ c ∈ ds, 48 ≤ c ∧ c ≤ 57) (n : Nat)
    (hn : n ≤ 18446744073709551615) :
    parseUintLoop 18446744073709551615 n ds =
      if ds.foldl (fun n c => n * 10 + (c - 48)) n ≤ 18446744073709551615 then
        .ok (ds.foldl (fun n c => n * 10 + (c - 48)) n)
      else .error .errRange := by
  induction ds generalizing n with
  | nil => simp [parseUintLoop, hn]
  | cons c ds ih =>
    have hc := hd c (List.mem_cons_self _ _)
    have hds := fun x hx => hd x (List.mem_cons_of_mem _ hx)
    have hge := foldl_digits_ge ds (n * 10 + (c - 48))
    have h10 : ¬ c - 48 ≥ 10 := by omega
    have e64 : (2 : Nat) ^ 64 = 18446744073709551616 := by norm_num
    have ecut : maxUint64 / 10 + 1 = 1844674407370955162 := by decide
    simp only [parseUintLoop, hc, and_self, if_true, h10, if_false, List.foldl_cons, e64, ecut]
    by_cases h1 : n ≥ 1844674407370955162
    · rw [if_pos h1, if_neg (by omega)]
    · rw [if_neg h1]
      by_cases h2 : n * 10 + (c - 48) ≤ 18446744073709551615
      · have e : (n * 10 + (c - 48)) % 18446744073709551616 = n * 10 + (c - 48) :=
          Nat.mod_eq_of_lt (by omega)
        rw [e, if_neg (by omega)]
        exact ih hds _ h2
      · have e : (n * 10 + (c - 48)) % 18446744073709551616
            = n * 10 + (c - 48) - 18446744073709551616 := by omega
        rw [e, if_pos (by omega), if_neg (by omega)]

/-- The call `ParseUint` on a non-empty string of digits. -/
theorem ParseUint_digits (ds : GoString) (hne : ds ≠ []) (hd : ∀ c ∈ ds, 48 ≤ c ∧ c ≤ 57) :
    ParseUint ds =
      if digitsVal ds ≤ 18446744073709551615 then .ok (digitsVal ds) else .error .errRange := by
  have e : (2 : Nat) ^ intSize - 1 = 18446744073709551615 := by decide
  unfold ParseUint
  rw [if_neg hne, e, parseUintLoop_digits ds hd 0 (by omega)]
  rfl

/-- On a non-empty string of digits `Atoi` returns the decimal value when it is below
`2^63`, and a range error otherwise. -/
theorem Atoi_digits (ds : GoString) (hne : ds ≠ []) (hd : ∀ c ∈ ds, 48 ≤ c ∧ c ≤ 57) :
    Atoi ds =
      if digitsVal ds < 9223372036854775808 then .ok (digitsVal ds : Int)
      else .error .errRange := by
  have hslow : ParseInt ds =
      if digitsVal ds < 9223372036854775808 then .ok (digitsVal ds : Int)
      else .error .errRange := by
    cases ds with
    | nil => exact absurd rfl hne
    | cons c rest =>
      have hc := hd c (List.mem_cons_self _ _)
      have h45 : c ≠ 45 := by omega
      have h43 : c ≠ 43 := by omega
      have ecut : (2 : Nat) ^ (intSize - 1) = 9223372036854775808 := by decide
      have emax : (2 : Nat) ^ intSize - 1 = 18446744073709551615 := by decide
      simp only [ParseInt, h45, h43, or_self, if_false, ParseUint_digits (c :: rest) hne hd,
        ecut, emax]
      by_cases h1 : digitsVal (c :: rest) ≤ 18446744073709551615
      · simp only [if_pos h1]
        by_cases h2 : digitsVal (c :: rest) < 9223372036854775808
        · simp [h2]
        · simp [h2]
      · simp only [if_neg h1]
        have h2 : ¬ digitsVal (c :: rest) < 9223372036854775808 := by omega
        simp [h2]
  cases ds with
  | nil => exact absurd rfl hne
  | cons c rest =>
    have hc := hd c (List.mem_cons_self _ _)
    have h45 : c ≠ 45 := by omega
    have h43 : c ≠ 43 := by omega
    unfold Atoi
    by_cases hlen : (c :: rest).length < 19
    · have hv := foldl_digits_lt (c :: rest) hd 0
      have hpow : 10 ^ (c :: rest).length ≤ 10 ^ 18 :=
        Nat.pow_le_pow_right (by omega) (by omega)
      have hlt : digitsVal (c :: rest) < 9223372036854775808 := by
        unfold digitsVal
        have : (10 : Nat) ^ 18 = 1000000000000000000 := by norm_num
        omega
      simp only [hlen, if_true, h45, h43, or_self, false_and, if_false,
        atoiFast_digits (c :: rest) hd 0, if_pos hlt]
      rfl
    · simp only [hlen, if_false]
      exact hslow

/-- With enough fuel `fmtNat` yields a non-empty string of digits whose value is `n`. -/
theorem fmtNat_spec (fuel n : Nat) (h : n < fuel) :
    fmtNat fuel n ≠ [] ∧ (∀ c ∈ fmtNat fuel n, 48 ≤ c ∧ c ≤ 57) ∧
      digitsVal (fmtNat fuel n) = n := by
  induction fuel generalizing n with
  | zero => omega
  | succ fuel ih =>
    unfold fmtNat
    by_cases h10 : n < 10
    · simp only [if_pos h10]
      refine ⟨by simp, ?_, ?_⟩
      · intro c hc
        simp only [List.mem_singleton] at hc
        omega
      · simp [digitsVal]
    · simp only [if_neg h10]
      obtain ⟨_, hd, hv⟩ := ih (n / 10) (by omega)
      refine ⟨by simp, ?_, ?_⟩
      · intro c hc
        simp only [List.mem_append, List.mem_singleton] at hc
        rcases hc with hc | hc
        · exact hd c hc
        · omega
      · unfold digitsVal at hv ⊢
        rw [List.foldl_append, hv]
        simp only [List.foldl_cons, List.foldl_nil]
        omega

/-- On a minus sign followed by a non-empty string of digits of value at most `2^63`,
`Atoi` returns the negated value. -/
theorem Atoi_neg_digits (ds : GoString) (hne : ds ≠ []) (hd : ∀ c ∈ ds, 48 ≤ c ∧ c ≤ 57)
    (hv : digitsVal ds ≤ 9223372036854775808) :
    Atoi (45 :: ds) = .ok (- (digitsVal ds : Int)) := by
  unfold Atoi
  by_cases hlen : (45 :: ds).length < 19
  · have hl : ¬ ds.length < 1 := by
      cases ds with
      | nil => exact absurd rfl hne
      | cons c rest => simp
    simp only [hlen, if_true, true_or, true_and, hl, if_false, atoiFast_digits ds hd 0]
    rfl
  · have ecut : (2 : Nat) ^ (intSize - 1) = 9223372036854775808 := by decide
    have emax : (2 : Nat) ^ intSize - 1 = 18446744073709551615 := by decide
    have h1 : digitsVal ds ≤ 18446744073709551615 := by omega
    have h2 : ¬ digitsVal ds > 9223372036854775808 := by omega
    simp only [hlen, if_false, ParseInt, or_true, if_true, ParseUint_digits ds hne hd, if_pos h1,
      ecut, emax]
    simp [h2]

/-- The text written by `Itoa` is read back by `Atoi`, for every 64-bit `int`. -/
theorem Atoi_Itoa (i : Int) (hlo : -9223372036854775808 ≤ i) (hhi : i < 9223372036854775808) :
    Atoi (Itoa i) = .ok i := by
  obtain ⟨hne, hd, hv⟩ := fmtNat_spec (i.natAbs + 1) i.natAbs (by omega)
  unfold Itoa
  by_cases hneg : i < 0
  · rw [if_pos hneg, Atoi_neg_digits _ hne hd (by omega), hv]
    congr 1
    omega
  · rw [if_neg hneg, Atoi_digits _ hne hd, hv, if_pos (by omega)]
    congr 1
    omega

/-! ## Volume controller: reading the mixer -/

/-- A run of digits followed by a byte that is no digit is split right behind the run. -/
theorem takeWhile_dropWhile_digits (ds : GoString) (hd : ∀ c ∈ ds, 48 ≤ c ∧ c ≤ 57)
    (x : Nat) (hx : ¬ (48 ≤ x ∧ x ≤ 57)) (t : GoString) :
    (ds ++ x :: t).takeWhile (fun c => decide (48 ≤ c ∧ c ≤ 57)) = ds ∧
      (ds ++ x :: t).dropWhile (fun c => decide (48 ≤ c ∧ c ≤ 57)) = x :: t := by
  induction ds with
  | nil => simp [List.takeWhile, List.dropWhile, hx]
  | cons c ds ih =>
    have hc := hd c (List.mem_cons_self _ _)
    have h := ih (fun y hy => hd y (List.mem_cons_of_mem _ hy))
    have hp : decide (48 ≤ c ∧ c ≤ 57) = true := decide_eq_true hc
    simp only [List.cons_append, List.takeWhile_cons, List.dropWhile_cons, hp, if_true, h.1, h.2,
      and_self]

/-- The pattern matches at the start of `s` with capture `ds` exactly when `s` starts with
`[`, the non-empty run of digits `ds`, and `%]`. -/
theorem matchHere_eq_some_iff (s ds : GoString) :
    matchHere s = some ds ↔
      ds ≠ [] ∧ (∀ c ∈ ds, 48 ≤ c ∧ c ≤ 57) ∧ ∃ post, s = 91 :: ds ++ 37 :: 93 :: post := by
  constructor
  · intro h
    unfold matchHere at h
    split at h
    · rename_i rest
      split at h
      · rename_i d ds1 post htw hdw
        injection h with h
        subst h
        refine ⟨by simp, ?_, post, ?_⟩
        · intro c hc
          rw [← htw] at hc
          simpa using (List.mem_takeWhile_imp hc)
        · rw [← htw, ← hdw, List.cons_append, List.takeWhile_append_dropWhile]
      · cases h
    · cases h
  · rintro ⟨hne, hd, post, rfl⟩
    obtain ⟨htw, hdw⟩ := takeWhile_dropWhile_digits ds hd 37 (by omega) (93 :: post)
    cases ds with
    | nil => exact absurd rfl hne
    | cons d ds1 =>
      simp only [matchHere, List.cons_append, List.append_assoc]
      simp only [List.cons_append] at htw hdw
      rw [htw, hdw]

/-- A match at offset 0 is a match of the pattern at the start of the text. -/
theorem MatchAt_zero (s ds : GoString) : MatchAt s 0 ds ↔ matchHere s = some ds := by
  rw [matchHere_eq_some_iff]
  unfold MatchAt
  constructor
  · rintro ⟨hne, hd, pre, post, rfl, hpre⟩
    have : pre = [] := List.length_eq_zero.mp hpre
    subst this
    exact ⟨hne, hd, post, by simp⟩
  · rintro ⟨hne, hd, post, rfl⟩
    exact ⟨hne, hd, [], post, by simp, rfl⟩

/-- A match at offset `i + 1` is a match at offset `i` of the text without its first byte. -/
theorem MatchAt_succ (c : Nat) (s : GoString) (i : Nat) (ds : GoString) :
    MatchAt (c :: s) (i + 1) ds ↔ MatchAt s i ds := by
  unfold MatchAt
  constructor
  · rintro ⟨hne, hd, pre, post, h, hpre⟩
    cases pre with
    | nil => simp at hpre
    | cons b pre1 =>
      simp only [List.cons_append, List.append_assoc, List.cons.injEq] at h
      refine ⟨hne, hd, pre1, post, ?_, by simpa using hpre⟩
      rw [h.2]
      simp
  · rintro ⟨hne, hd, pre, post, rfl, hpre⟩
    exact ⟨hne, hd, c :: pre, post, by simp, by simp [hpre]⟩

/-- The empty text has no match. -/
theorem not_MatchAt_nil (i : Nat) (ds : GoString) : ¬ MatchAt [] i ds := by
  rintro ⟨_, _, pre, post, h, _⟩
  cases pre <;> simp at h

/-- The search fails exactly when the text has no match at any offset. -/
theorem findSubmatch_eq_none_iff (s : GoString) :
    findSubmatch s = none ↔ ∀ i ds, ¬ MatchAt s i ds := by
  induction s with
  | nil => simp [findSubmatch, not_MatchAt_nil]
  | cons c s ih =>
    unfold findSubmatch
    cases hm : matchHere (c :: s) with
    | some ds =>
      simp only [false_iff, not_forall, not_not, reduceCtorEq]
      exact ⟨0, ds, (MatchAt_zero _ _).mpr hm⟩
    | none =>
      simp only [ih]
      constructor
      · intro h i ds
        cases i with
        | zero =>
          rw [MatchAt_zero, hm]
          simp
        | succ i =>
          rw [MatchAt_succ]
          exact h i ds
      · intro h i ds hmatch
        exact h (i + 1) ds ((MatchAt_succ _ _ _ _).mpr hmatch)

/-- The search returns the digits of the leftmost match. -/
theorem findSubmatch_leftmost (s : GoString) (i : Nat) (ds : GoString)
    (h : MatchAt s i ds) (hleft : ∀ j, j < i → ∀ ds1, ¬ MatchAt s j ds1) :
    findSubmatch s = some ds := by
  induction s generalizing i with
  | nil => exact absurd h (not_MatchAt_nil i ds)
  | cons c s ih =>
    unfold findSubmatch
    cases i with
    | zero =>
      rw [(MatchAt_zero _ _).mp h]
    | succ i =>
      cases hm : matchHere (c :: s) with
      | some ds1 => exact absurd ((MatchAt_zero _ _).mpr hm) (hleft 0 (by omega) ds1)
      | none =>
        simp only
        exact ih i ((MatchAt_succ _ _ _ _).mp h)
          (fun j hj ds1 hmatch => hleft (j + 1) (by omega) ds1 ((MatchAt_succ _ _ _ _).mpr hmatch))

/-- C10, as stated, fails: the text `[99999999999999999999%]` contains a substring of the
required form, with digits of value 99999999999999999999, and `getVolume` fails with a
range error instead of returning that value. -/
theorem getVolume_twenty_digits :
    MatchAt (str "[99999999999999999999%]") 0 (str "99999999999999999999") ∧
    digitsVal (str "99999999999999999999") = 99999999999999999999 ∧
    (getVolume (mixerPrints (str "[99999999999999999999%]")) freshWorld).1
      = .error .errRange :=
  ⟨⟨by decide, by decide, [], [], rfl, rfl⟩, by decide, by decide⟩

/-- C10, amended: on the output of the mixer, `getVolume` fails with "failed to parse
volume" when the text contains no substring made of `[`, one or more decimal digits and
`%]`.  Otherwise it looks at the digits of the leftmost such substring: when their value
is below `2^63` it returns that value, whether or not it lies in [0,100]; when their
value is `2^63` or more it fails with a range error. -/
theorem getVolume_parse (env : Env) (w : World) (output : GoString)
    (hout : env.amixerGet = .ok output) :
    ((∀ i ds, ¬ MatchAt output i ds) →
      (getVolume env w).1 = .error (.new (str "failed to parse volume"))) ∧
    (∀ i ds, MatchAt output i ds → (∀ j, j < i → ∀ ds1, ¬ MatchAt output j ds1) →
      (getVolume env w).1 =
        if digitsVal ds < 9223372036854775808 then .ok (digitsVal ds : Int)
        else .error .errRange) := by
  constructor
  · intro h
    simp only [getVolume, hout, parseVolume, (findSubmatch_eq_none_iff output).mpr h]
  · intro i ds h hleft
    simp only [getVolume, hout, parseVolume, findSubmatch_leftmost output i ds h hleft]
    exact Atoi_digits ds h.1 h.2.1

/-- Witness for C10, amended: `muted` has no match and is refused; `[250%] [on]` yields 250,
a value above 100. -/
theorem getVolume_parse_witness :
    (getVolume (mixerPrints (str "muted")) freshWorld).1
      = .error (.new (str "failed to parse volume")) ∧
    (getVolume (mixerPrints (str "[250%] [on]")) freshWorld).1 = .ok 250 :=
  ⟨(getVolume_parse (mixerPrints (str "muted")) freshWorld (str "muted") rfl).1
      ((findSubmatch_eq_none_iff (str "muted")).mp (by decide)),
   (getVolume_parse (mixerPrints (str "[250%] [on]")) freshWorld (str "[250%] [on]") rfl).2
      0 (str "250") ⟨by decide, by decide, [], str " [on]", by decide, rfl⟩
      (fun j hj => absurd hj (Nat.not_lt_zero j))⟩

/-! ## Process lifecycle -/

/-- The two status texts differ. -/
theorem not_running_ne_running : str "not running" ≠ str "running" := by decide

/-- The five ways `getProcessStatus` can go: no marker; a marker that cannot be read; a
marker that is not a number; a marker whose identifier `os.FindProcess` refuses; a marker
whose identifier it resolves. -/
theorem getProcessStatus_cases (env : Env) (w : World) :
    (w.pidFile = none ∧ getProcessStatus env w = (str "not running", w)) ∨
    (∃ data err, w.pidFile = some data ∧ w.pidFileReadErr = some err ∧
      getProcessStatus env w = (str "not running", w)) ∨
    (∃ data err, w.pidFile = some data ∧ w.pidFileReadErr = none ∧ Atoi data = .error err ∧
      getProcessStatus env w = (str "not running", w)) ∨
    (∃ data pid err, w.pidFile = some data ∧ w.pidFileReadErr = none ∧ Atoi data = .ok pid ∧
      w.findProcess pid = some err ∧
      getProcessStatus env w = (str "not running", (removePidFile env w).2)) ∨
    (∃ data pid, w.pidFile = some data ∧ w.pidFileReadErr = none ∧ Atoi data = .ok pid ∧
      w.findProcess pid = none ∧ getProcessStatus env w = (str "running", w)) := by
  cases hf : w.pidFile with
  | none =>
    left
    simp [getProcessStatus, getPidFromFile, hf]
  | some data =>
    right
    cases hr : w.pidFileReadErr with
    | some rerr =>
      left
      exact ⟨data, rerr, rfl, rfl, by simp [getProcessStatus, getPidFromFile, hf, hr]⟩
    | none =>
      right
      cases ha : Atoi data with
      | error err =>
        left
        exact ⟨data, err, rfl, rfl, ha, by simp [getProcessStatus, getPidFromFile, hf, hr, ha]⟩
      | ok pid =>
        right
        cases hp : w.findProcess pid with
        | some err =>
          left
          exact ⟨data, pid, err, rfl, rfl, ha, hp,
            by simp [getProcessStatus, getPidFromFile, hf, hr, ha, hp]⟩
        | none =>
          right
          exact ⟨data, pid, rfl, rfl, ha, hp,
            by simp [getProcessStatus, getPidFromFile, hf, hr, ha, hp]⟩

/-- The call `os.Remove(PidFile)` touches nothing but the marker. -/
theorem removePidFile_frame (env : Env) (w : World) :
    (removePidFile env w).2.killed = w.killed ∧
      (removePidFile env w).2.findProcess = w.findProcess ∧
      (removePidFile env w).2.alive = w.alive ∧
      (removePidFile env w).2.pidFileReadErr = w.pidFileReadErr ∧
      (removePidFile env w).2.spawned = w.spawned ∧
      (removePidFile env w).2.mixer = w.mixer ∧
      (removePidFile env w).2.noiseFile = w.noiseFile := by
  unfold removePidFile
  cases w.pidFile with
  | none => simp
  | some data => cases env.removeErr <;> simp

/-- A readable marker whose identifier resolves makes the status "running" and leaves the
world alone. -/
theorem getProcessStatus_of_resolves (env : Env) (w : World) (data : GoString) (pid : Int)
    (hf : w.pidFile = some data) (hr : w.pidFileReadErr = none) (ha : Atoi data = .ok pid)
    (hp : w.findProcess pid = none) :
    getProcessStatus env w = (str "running", w) := by
  simp [getProcessStatus, getPidFromFile, hf, hr, ha, hp]

/-- C9, as stated, fails: a marker holding `4242` and a newline is not a number for
`strconv.Atoi`; `getProcessStatus` answers "not running" and the marker is still
there. -/
theorem getProcessStatus_keeps_unparsable_marker :
    (getProcessStatus calmEnv (markedWorld (str "4242\n"))).1 = str "not running" ∧
    (getProcessStatus calmEnv (markedWorld (str "4242\n"))).2.pidFile = some (str "4242\n") :=
  ⟨by decide, by decide⟩

/-- C9, amended: `getProcessStatus` returns "running", changing nothing, when the marker
file exists and the process identifier recorded in it resolves to a live process handle;
it returns "running" only if the marker file exists, can be read and holds a decimal
integer.  When the marker file is absent, cannot be read, or is unreadable as a number, it
returns "not running" and changes nothing: such a marker is left on disk.  The status is
always one of the two texts.  Nothing is said about a marker that names a process which is
no longer alive. -/
theorem getProcessStatus_spec (env : Env) (w : World) :
    (∀ data pid, w.pidFile = some data → w.pidFileReadErr = none → Atoi data = .ok pid →
      w.findProcess pid = none → w.alive pid = true →
      getProcessStatus env w = (str "running", w)) ∧
    ((getProcessStatus env w).1 = str "running" →
      ∃ data pid, w.pidFile = some data ∧ w.pidFileReadErr = none ∧ Atoi data = .ok pid) ∧
    (w.pidFile = none → getProcessStatus env w = (str "not running", w)) ∧
    (∀ data err, w.pidFile = some data → w.pidFileReadErr = some err →
      getProcessStatus env w = (str "not running", w)) ∧
    (∀ data err, w.pidFile = some data → w.pidFileReadErr = none → Atoi data = .error err →
      getProcessStatus env w = (str "not running", w)) ∧
    ((getProcessStatus env w).1 = str "running" ∨
      (getProcessStatus env w).1 = str "not running") := by
  refine ⟨?_, ?_, ?_, ?_, ?_, ?_⟩
  · intro data pid hf hr ha hp _
    exact getProcessStatus_of_resolves env w data pid hf hr ha hp
  · intro h
    rcases getProcessStatus_cases env w with
      ⟨hf, hs⟩ | ⟨data, err, hf, hr, hs⟩ | ⟨data, err, hf, hr, ha, hs⟩ |
      ⟨data, pid, err, hf, hr, ha, hp, hs⟩ | ⟨data, pid, hf, hr, ha, hp, hs⟩
    · rw [hs] at h
      exact absurd h not_running_ne_running
    · rw [hs] at h
      exact absurd h not_running_ne_running
    · rw [hs] at h
      exact absurd h not_running_ne_running
    · rw [hs] at h
      exact absurd h not_running_ne_running
    · exact ⟨data, pid, hf, hr, ha⟩
  · intro hf
    simp [getProcessStatus, getPidFromFile, hf]
  · intro data err hf hr
    simp [getProcessStatus, getPidFromFile, hf, hr]
  · intro data err hf hr ha
    simp [getProcessStatus, getPidFromFile, hf, hr, ha]
  · rcases getProcessStatus_cases env w with
      ⟨hf, hs⟩ | ⟨data, err, hf, hr, hs⟩ | ⟨data, err, hf, hr, ha, hs⟩ |
      ⟨data, pid, err, hf, hr, ha, hp, hs⟩ | ⟨data, pid, hf, hr, ha, hp, hs⟩
    · exact Or.inr (by rw [hs])
    · exact Or.inr (by rw [hs])
    · exact Or.inr (by rw [hs])
    · exact Or.inr (by rw [hs])
    · exact Or.inl (by rw [hs])

/-- Witness for C9, amended: the playing machine is reported "running"; the machine without
marker, the one whose marker cannot be read and the one whose marker holds `abc` are
reported "not running" and left as they are. -/
theorem getProcessStatus_spec_witness :
    getProcessStatus calmEnv playingWorld = (str "running", playingWorld) ∧
    (∃ data pid, playingWorld.pidFile = some data ∧ playingWorld.pidFileReadErr = none ∧
      Atoi data = .ok pid) ∧
    getProcessStatus calmEnv freshWorld = (str "not running", freshWorld) ∧
    getProcessStatus calmEnv unreadableWorld = (str "not running", unreadableWorld) ∧
    getProcessStatus calmEnv (markedWorld (str "abc"))
      = (str "not running", markedWorld (str "abc")) :=
  ⟨(getProcessStatus_spec calmEnv playingWorld).1 (str "4242") 4242 rfl rfl (by decide) rfl
      (by decide),
   (getProcessStatus_spec calmEnv playingWorld).2.1 (by decide),
   (getProcessStatus_spec calmEnv freshWorld).2.2.1 rfl,
   (getProcessStatus_spec calmEnv unreadableWorld).2.2.2.1 (str "4242")
      (.sys (str "permission denied")) rfl rfl,
   (getProcessStatus_spec calmEnv (markedWorld (str "abc"))).2.2.2.2.1 (str "abc") .errSyntax
      rfl rfl (by decide)⟩

/-- On a machine where `os.FindProcess` returns a handle for every identifier, a marker that
names a process which is gone is still reported "running" and stays on disk, and
`stopProcess` then fails with `os.ErrProcessDone`, the marker still in place. -/
theorem getProcessStatus_dead_pid_running :
    orphanWorld.alive 4242 = false ∧
    (getProcessStatus calmEnv orphanWorld).1 = str "running" ∧
    (getProcessStatus calmEnv orphanWorld).2.pidFile = some (str "4242") ∧
    (stopProcess calmEnv orphanWorld).1 = .returned (some ErrProcessDone) ∧
    (stopProcess calmEnv orphanWorld).2.pidFile = some (str "4242") :=
  ⟨rfl, by decide, by decide, by decide, by decide⟩

/-- When the status is not "running", `stopProcess` returns `nil` right away and leaves the
world as `getProcessStatus` left it. -/
theorem stopProcess_of_not_running (env : Env) (w : World)
    (h : (getProcessStatus env w).1 ≠ str "running") :
    stopProcess env w = (.returned none, (getProcessStatus env w).2) := by
  unfold stopProcess
  simp only [h, ne_eq, not_false_eq_true, if_true]

/-- C6, as stated, fails: with a marker holding `abc` the status is "not running",
`stopProcess` returns `nil`, and the marker file is still on disk afterwards. -/
theorem stopProcess_keeps_unparsable_marker :
    (getProcessStatus calmEnv (markedWorld (str "abc"))).1 = str "not running" ∧
    (stopProcess calmEnv (markedWorld (str "abc"))).1 = .returned none ∧
    (stopProcess calmEnv (markedWorld (str "abc"))).2.pidFile = some (str "abc") :=
  ⟨by decide, by decide, by decide⟩

/-- C6, amended: in every state in which `getProcessStatus` returns "not running",
`stopProcess` returns no error and sends no kill signal.  Afterwards no marker file
exists if none existed before; a marker file that cannot be read, or whose content is not
a decimal integer, is left on disk, the world unchanged.  Where `os.FindProcess` returns a
handle for every identifier, as on Unix, these are all the cases and the call changes
nothing at all. -/
theorem stopProcess_not_running (env : Env) (w : World)
    (h : (getProcessStatus env w).1 = str "not running") :
    (stopProcess env w).1 = .returned none ∧
    (stopProcess env w).2.killed = w.killed ∧
    (w.pidFile = none → (stopProcess env w).2.pidFile = none) ∧
    (∀ data err, w.pidFile = some data → w.pidFileReadErr = some err →
      (stopProcess env w).2 = w) ∧
    (∀ data err, w.pidFile = some data → w.pidFileReadErr = none → Atoi data = .error err →
      (stopProcess env w).2 = w) ∧
    ((∀ pid, w.findProcess pid = none) → stopProcess env w = (.returned none, w)) := by
  have hne : (getProcessStatus env w).1 ≠ str "running" := by
    rw [h]
    exact not_running_ne_running
  rw [stopProcess_of_not_running env w hne]
  rcases getProcessStatus_cases env w with
    ⟨hf, hs⟩ | ⟨data, err, hf, hr, hs⟩ | ⟨data, err, hf, hr, ha, hs⟩ |
    ⟨data, pid, err, hf, hr, ha, hp, hs⟩ | ⟨data, pid, hf, hr, ha, hp, hs⟩
  · rw [hs]
    exact ⟨rfl, rfl, fun _ => hf, fun _ _ _ _ => rfl, fun _ _ _ _ _ => rfl, fun _ => rfl⟩
  · rw [hs]
    exact ⟨rfl, rfl, fun _ => by rw [hf] at *; contradiction, fun _ _ _ _ => rfl,
      fun _ _ _ _ _ => rfl, fun _ => rfl⟩
  · rw [hs]
    exact ⟨rfl, rfl, fun _ => by rw [hf] at *; contradiction, fun _ _ _ _ => rfl,
      fun _ _ _ _ _ => rfl, fun _ => rfl⟩
  · rw [hs]
    refine ⟨rfl, (removePidFile_frame env w).1, fun hnone => ?_, fun _ err1 _ hr1 => ?_,
      fun data1 err1 hf1 _ ha1 => ?_, fun hunix => ?_⟩
    · rw [hf] at hnone
      cases hnone
    · rw [hr] at hr1
      cases hr1
    · rw [hf] at hf1
      cases hf1
      rw [ha] at ha1
      cases ha1
    · rw [hunix pid] at hp
      cases hp
  · rw [hs] at hne
    exact absurd rfl hne

/-- Witness for C6, amended: `stopProcess` on the machine without marker, on the one whose
marker cannot be read and on the one whose marker holds `abc`. -/
theorem stopProcess_not_running_witness :
    ((stopProcess calmEnv freshWorld).1 = .returned none ∧
      (stopProcess calmEnv freshWorld).2.killed = freshWorld.killed ∧
      (stopProcess calmEnv freshWorld).2.pidFile = none) ∧
    (stopProcess calmEnv unreadableWorld).2 = unreadableWorld ∧
    (stopProcess calmEnv (markedWorld (str "abc"))).2 = markedWorld (str "abc") ∧
    stopProcess calmEnv (markedWorld (str "abc")) = (.returned none, markedWorld (str "abc")) :=
  ⟨⟨(stopProcess_not_running calmEnv freshWorld (by decide)).1,
    (stopProcess_not_running calmEnv freshWorld (by decide)).2.1,
    (stopProcess_not_running calmEnv freshWorld (by decide)).2.2.1 rfl⟩,
   (stopProcess_not_running calmEnv unreadableWorld (by decide)).2.2.2.1 (str "4242")
      (.sys (str "permission denied")) rfl rfl,
   (stopProcess_not_running calmEnv (markedWorld (str "abc")) (by decide)).2.2.2.2.1
      (str "abc") .errSyntax rfl rfl (by decide),
   (stopProcess_not_running calmEnv (markedWorld (str "abc")) (by decide)).2.2.2.2.2
      (fun _ => rfl)⟩

/-- The download touches nothing but the audio asset, and nothing at all when the asset
exists. -/
theorem downloadFileIfNotExists_frame (env : Env) (w : World) :
    (downloadFileIfNotExists env w).2.pidFile = w.pidFile ∧
      (downloadFileIfNotExists env w).2.pidFileReadErr = w.pidFileReadErr ∧
      (downloadFileIfNotExists env w).2.findProcess = w.findProcess ∧
      (downloadFileIfNotExists env w).2.alive = w.alive ∧
      (downloadFileIfNotExists env w).2.spawned = w.spawned ∧
      (downloadFileIfNotExists env w).2.killed = w.killed ∧
      (downloadFileIfNotExists env w).2.mixer = w.mixer ∧
      (∀ asset, w.noiseFile = some asset → downloadFileIfNotExists env w = (none, w)) := by
  unfold downloadFileIfNotExists
  cases hn : w.noiseFile with
  | some asset => simp
  | none =>
    cases env.httpGet with
    | error err => simp
    | ok body =>
      cases env.createErr with
      | some err => simp
      | none =>
        cases env.copyErr with
        | some ke => simp
        | none => simp

/-- C5, as stated, fails: on the playing machine whose audio asset was deleted, the
status is "running" and a start request still downloads the asset, so the disk
changes. -/
theorem startHandler_running_downloads :
    (getProcessStatus calmEnv playingWorldNoAsset).1 = str "running" ∧
    playingWorldNoAsset.noiseFile = none ∧
    (startHandler calmEnv ⟨str "192.168.1.5:54321", none, []⟩ playingWorldNoAsset).2.noiseFile
      = some [73, 68, 51] :=
  ⟨by decide, rfl, by decide⟩

/-- C5, amended: in every state in which `getProcessStatus` returns "running", a start
request spawns no process, sends no signal, runs no mixer command, and leaves the marker
file and the process table as they were; the only thing on disk it may change is the
audio asset, which it fetches when absent.  When the asset is present the request
changes nothing at all and is answered "Process is already running". -/
theorem startHandler_running (env : Env) (r : Request) (w : World)
    (h : (getProcessStatus env w).1 = str "running") :
    (startHandler env r w).2.spawned = w.spawned ∧
    (startHandler env r w).2.killed = w.killed ∧
    (startHandler env r w).2.mixer = w.mixer ∧
    (startHandler env r w).2.pidFile = w.pidFile ∧
    (startHandler env r w).2.findProcess = w.findProcess ∧
    (startHandler env r w).2.alive = w.alive ∧
    (startHandler env r w).2.pidFileReadErr = w.pidFileReadErr ∧
    (∀ asset, w.noiseFile = some asset →
      startHandler env r w
        = (⟨200, none, .text (str "Process is already running\n")⟩, w)) := by
  rcases getProcessStatus_cases env w with
    ⟨hf, hs⟩ | ⟨data, err, hf, hr, hs⟩ | ⟨data, err, hf, hr, ha, hs⟩ |
    ⟨data, pid, err, hf, hr, ha, hp, hs⟩ | ⟨data, pid, hf, hr, ha, hp, hs⟩
  · rw [hs] at h
    exact absurd h not_running_ne_running
  · rw [hs] at h
    exact absurd h not_running_ne_running
  · rw [hs] at h
    exact absurd h not_running_ne_running
  · rw [hs] at h
    exact absurd h not_running_ne_running
  · obtain ⟨dpid, drd, dfind, dal, dsp, dk, dm, dsame⟩ := downloadFileIfNotExists_frame env w
    have hrun : getProcessStatus env (downloadFileIfNotExists env w).2
        = (str "running", (downloadFileIfNotExists env w).2) :=
      getProcessStatus_of_resolves env _ data pid (by rw [dpid, hf]) (by rw [drd, hr]) ha
        (by rw [dfind, hp])
    have key : (startHandler env r w).2 = (downloadFileIfNotExists env w).2 := by
      unfold startHandler
      cases hd : (downloadFileIfNotExists env w).1 with
      | some err => simp only [hd]
      | none => simp only [hd, hrun, if_true]
    refine ⟨by rw [key, dsp], by rw [key, dk], by rw [key, dm], by rw [key, dpid],
      by rw [key, dfind], by rw [key, dal], by rw [key, drd], fun asset hasset => ?_⟩
    have hdl := dsame asset hasset
    unfold startHandler
    simp only [hdl, hs, if_true]

/-- Witness for C5, amended, on the playing machine. -/
theorem startHandler_running_witness :
    (startHandler calmEnv ⟨str "192.168.1.5:54321", none, []⟩ playingWorld).2.spawned
      = playingWorld.spawned ∧
    startHandler calmEnv ⟨str "192.168.1.5:54321", none, []⟩ playingWorld
      = (⟨200, none, .text (str "Process is already running\n")⟩, playingWorld) :=
  ⟨(startHandler_running calmEnv ⟨str "192.168.1.5:54321", none, []⟩ playingWorld
      (by decide)).1,
   (startHandler_running calmEnv ⟨str "192.168.1.5:54321", none, []⟩ playingWorld
      (by decide)).2.2.2.2.2.2.2 [73, 68, 51] rfl⟩

/-- C7 fails when the marker cannot be written: `os.WriteFile` fails, its error is
dropped, and `startHandler` still spawns process 4242 and answers "Process started with
PID 4242" with status 200, while no marker file exists afterwards, `getPidFromFile` fails
and `getProcessStatus` returns "not running". -/
theorem startHandler_success_without_marker :
    (startHandler noWriteEnv ⟨str "192.168.1.5:54321", none, []⟩ idleWorld).1
      = ⟨200, none, .text (str "Process started with PID 4242")⟩ ∧
    (startHandler noWriteEnv ⟨str "192.168.1.5:54321", none, []⟩ idleWorld).2.spawned
      = [4242] ∧
    (startHandler noWriteEnv ⟨str "192.168.1.5:54321", none, []⟩ idleWorld).2.pidFile
      = none ∧
    getPidFromFile (startHandler noWriteEnv ⟨str "192.168.1.5:54321", none, []⟩ idleWorld).2
      = .error .notExist ∧
    (getProcessStatus noWriteEnv
      (startHandler noWriteEnv ⟨str "192.168.1.5:54321", none, []⟩ idleWorld).2).1
      = str "not running" :=
  ⟨by decide, by decide, by decide, by decide, by decide⟩

/-- The function `getProcessStatus` never changes whether the marker can be read. -/
theorem getProcessStatus_pidFileReadErr (env : Env) (w : World) :
    (getProcessStatus env w).2.pidFileReadErr = w.pidFileReadErr := by
  rcases getProcessStatus_cases env w with
    ⟨hf, hs⟩ | ⟨data, err, hf, hr, hs⟩ | ⟨data, err, hf, hr, ha, hs⟩ |
    ⟨data, pid, err, hf, hr, ha, hp, hs⟩ | ⟨data, pid, hf, hr, ha, hp, hs⟩
  · rw [hs]
  · rw [hs]
  · rw [hs]
  · rw [hs]
    exact (removePidFile_frame env w).2.2.2.1
  · rw [hs]

/-- The function `setVolume` touches nothing but the log of mixer commands. -/
theorem setVolume_frame (env : Env) (volume : Int) (w : World) :
    (setVolume env volume w).2.pidFile = w.pidFile ∧
      (setVolume env volume w).2.pidFileReadErr = w.pidFileReadErr ∧
      (setVolume env volume w).2.findProcess = w.findProcess := by
  unfold setVolume
  split
  · exact ⟨rfl, rfl, rfl⟩
  · cases env.amixerSet <;> exact ⟨rfl, rfl, rfl⟩

/-- After a successful write the marker holds the decimal text of the new identifier, can
be read when it could be read before, and the identifier resolves. -/
theorem spawnAndRecord_marker (env : Env) (pid : Int) (w : World)
    (hwrite : env.writeErr = none) (hread : w.pidFileReadErr = none) :
    (spawnAndRecord env pid w).pidFile = some (Itoa pid) ∧
      (spawnAndRecord env pid w).pidFileReadErr = none ∧
      (spawnAndRecord env pid w).findProcess pid = none := by
  unfold spawnAndRecord
  simp only [hwrite, hread]
  refine ⟨trivial, ?_, by simp⟩
  cases w.pidFile <;> rfl

/-- When the marker is written and can be read, a start request that spawns process `pid`
and answers "Process started with PID" leaves a marker holding the decimal text of
`pid`, which `getPidFromFile` reads back, and the status is "running". -/
theorem startHandler_success_marker (env : Env) (r : Request) (w : World) (pid : Int)
    (hlo : -9223372036854775808 ≤ pid) (hhi : pid < 9223372036854775808)
    (hstart : env.startResult = .ok pid) (hwrite : env.writeErr = none)
    (hread : w.pidFileReadErr = none)
    (hbody : (startHandler env r w).1.body = .text (str "Process started with PID " ++ Itoa pid)) :
    (startHandler env r w).2.pidFile = some (Itoa pid) ∧
    getPidFromFile (startHandler env r w).2 = .ok pid ∧
    ∀ env1, (getProcessStatus env1 (startHandler env r w).2).1 = str "running" := by
  have hdiff : Body.text (str "Process is already running\n")
      ≠ Body.text (str "Process started with PID " ++ Itoa pid) := by
    intro e
    injection e with e
    have e9 := congrArg (List.take 9) e
    have l : List.take 9 (str "Process is already running\n") = str "Process i" := by decide
    have rr : List.take 9 (str "Process started with PID " ++ Itoa pid) = str "Process s" := rfl
    rw [l, rr] at e9
    revert e9
    decide
  have hrd : (getProcessStatus env (downloadFileIfNotExists env w).2).2.pidFileReadErr = none := by
    rw [getProcessStatus_pidFileReadErr, (downloadFileIfNotExists_frame env w).2.1, hread]
  have hpath : (startHandler env r w).2 = (setVolume env DefaultVolume
      (spawnAndRecord env pid (getProcessStatus env (downloadFileIfNotExists env w).2).2)).2 := by
    unfold startHandler at hbody ⊢
    cases hd : (downloadFileIfNotExists env w).1 with
    | some err => simp [hd] at hbody
    | none =>
      simp only [hd] at hbody ⊢
      by_cases hs : (getProcessStatus env (downloadFileIfNotExists env w).2).1 = str "running"
      · simp only [hs, if_true] at hbody
        exact absurd hbody hdiff
      · simp only [hs, if_false, hstart]
        split <;> rfl
  obtain ⟨hpf, hpr, hpp⟩ := spawnAndRecord_marker env pid
    (getProcessStatus env (downloadFileIfNotExists env w).2).2 hwrite hrd
  obtain ⟨vf, vr, vp⟩ := setVolume_frame env DefaultVolume
    (spawnAndRecord env pid (getProcessStatus env (downloadFileIfNotExists env w).2).2)
  have h1 : (startHandler env r w).2.pidFile = some (Itoa pid) := by rw [hpath, vf, hpf]
  have h2 : (startHandler env r w).2.pidFileReadErr = none := by rw [hpath, vr, hpr]
  have h3 : (startHandler env r w).2.findProcess pid = none := by rw [hpath, vp, hpp]
  refine ⟨h1, ?_, fun env1 => ?_⟩
  · simp only [getPidFromFile, h1, h2]
    exact Atoi_Itoa pid hlo hhi
  · rw [getProcessStatus_of_resolves env1 _ (Itoa pid) pid h1 h2 (Atoi_Itoa pid hlo hhi) h3]

end NoiseMachine
